import Mathlib

/-!
The module `next.config.js` as a function of the process environment.

The module `next.config.js` evaluates one object literal and exports it.
The only input it reads is `process.env`.  The development below embeds the
JavaScript values the literal is made of, the property read `a.b`, and the
module body itself as the function `nextConfig` of the process environment,
and then settles the properties stated about the exported record.
-/

namespace PrimarySource

/-! ## JavaScript values -/

/-- The JavaScript values that occur in the module: `undefined`, booleans,
strings, array literals and plain objects.  A plain object is the list of its
own properties in insertion order. -/
inductive JSValue where
  | undefined : JSValue
  | bool (b : Bool) : JSValue
  | str (s : String) : JSValue
  | arr (elems : List JSValue) : JSValue
  | obj (props : List (String × JSValue)) : JSValue

/-- The one exception the module body could raise: reading a property of
`undefined` is a `TypeError`. -/
inductive JSError where
  | typeError (msg : String) : JSError

/-- The process environment: the `NAME=value` pairs the process was started
with.  A name is set when it has a pair; the first pair of a name counts. -/
abbrev ProcessEnv := List (String × String)

/-- The value a name is set to in the environment, if it is set. -/
def ProcessEnv.getenv (E : ProcessEnv) (name : String) : Option String :=
  List.lookup name E

/-- Own-property read on a property list: the value stored under the key, or
`undefined` when the object has no such property. -/
def ownProperty (props : List (String × JSValue)) (key : String) : JSValue :=
  match List.lookup key props with
  | some v => v
  | none => JSValue.undefined

/-- The property read `base.key`.  It throws on `undefined`; on a plain object
it yields the own property or `undefined`.  Only own data properties of plain
objects are modelled, which is all the module reads. -/
def member : JSValue → String → Except JSError JSValue
  | JSValue.undefined, key =>
      Except.error (JSError.typeError ("Cannot read properties of undefined (reading " ++ key ++ ")"))
  | JSValue.obj props, key => Except.ok (ownProperty props key)
  | _, _ => Except.ok JSValue.undefined

/-- The object `process.env`: one string-valued property per environment
pair. -/
def processEnvObject (E : ProcessEnv) : JSValue :=
  JSValue.obj (E.map fun p => (p.1, JSValue.str p.2))

/-- The global `process`, as far as the module uses it: an object with the
property `env`. -/
def processGlobal (E : ProcessEnv) : JSValue :=
  JSValue.obj [("env", processEnvObject E)]

/-- The expression `process.env.NAME`: two property reads. -/
def processEnvRead (E : ProcessEnv) (name : String) : Except JSError JSValue :=
  member (processGlobal E) "env" >>= fun env => member env name

/-! ## The module body -/

/-- The object literal bound to `nextConfig` and assigned to `module.exports`,
evaluated in source order under the process environment `E`. -/
def nextConfig (E : ProcessEnv) : Except JSError JSValue := do
  let experimental := JSValue.obj [("appDir", JSValue.bool true)]
  let images := JSValue.obj
    [("domains", JSValue.arr [JSValue.str "localhost"]),
     ("unoptimized", JSValue.bool true)]
  let supabaseUrl ← processEnvRead E "NEXT_PUBLIC_SUPABASE_URL"
  let supabaseAnonKey ← processEnvRead E "NEXT_PUBLIC_SUPABASE_ANON_KEY"
  let mapboxToken ← processEnvRead E "NEXT_PUBLIC_MAPBOX_TOKEN"
  let cloudflareR2PublicUrl ← processEnvRead E "NEXT_PUBLIC_CLOUDFLARE_R2_PUBLIC_URL"
  let env := JSValue.obj
    [("NEXT_PUBLIC_SUPABASE_URL", supabaseUrl),
     ("NEXT_PUBLIC_SUPABASE_ANON_KEY", supabaseAnonKey),
     ("NEXT_PUBLIC_MAPBOX_TOKEN", mapboxToken),
     ("NEXT_PUBLIC_CLOUDFLARE_R2_PUBLIC_URL", cloudflareR2PublicUrl)]
  pure (JSValue.obj [("experimental", experimental), ("images", images), ("env", env)])

/-- Read `config.key` on the outcome of building the config. -/
def configField (E : ProcessEnv) (key : String) : Except JSError JSValue :=
  nextConfig E >>= fun c => member c key

/-- Read `config.env.name` on the outcome of building the config. -/
def configEnv (E : ProcessEnv) (name : String) : Except JSError JSValue :=
  configField E "env" >>= fun env => member env name

/-- The four environment variables the `env` literal names, in source
order. -/
def publicNames : List String :=
  ["NEXT_PUBLIC_SUPABASE_URL", "NEXT_PUBLIC_SUPABASE_ANON_KEY",
   "NEXT_PUBLIC_MAPBOX_TOKEN", "NEXT_PUBLIC_CLOUDFLARE_R2_PUBLIC_URL"]

/-- The own keys of a value: the property names of an object in insertion
order, none for the other values modelled. -/
def ownKeys : JSValue → List String
  | JSValue.obj props => props.map Prod.fst
  | _ => []

/-- An optional environment string as the JavaScript value a read of
`process.env` gives: the string when set, `undefined` when not. -/
def envValue : Option String → JSValue
  | some s => JSValue.str s
  | none => JSValue.undefined

/-- The statement `module.exports = nextConfig`: the module exports the value
bound to `nextConfig`, the object itself and not a copy or a frozen view. -/
def moduleExports (E : ProcessEnv) : Except JSError JSValue :=
  nextConfig E

/-- The top-level properties of the record, in source order. -/
def recordFields : List String :=
  ["experimental", "images", "env"]

/-! ## What a holder of the exported object can do with it

The module builds the record with an object literal and nothing else: it never
calls `Object.freeze`, `Object.seal` or `Object.defineProperty`, so every
property of the record and of its nested objects is an ordinary writable data
property.  The definitions below describe reads, and assignments to properties
that already exist on such objects.  Every other assignment (to a property the
object lacks, or through a value that is not a plain object) is left
undescribed: the functions answer `none` there and nothing is stated about
it. -/

/-- The assignment `o.key = v` on an own property the plain object already
has: the property keeps its place and takes the new value.  The answer is
`none` when the object has no such property. -/
def replaceOwn : List (String × JSValue) → String → JSValue → Option (List (String × JSValue))
  | [], _, _ => none
  | (k, w) :: rest, key, v =>
      if key == k then some ((k, v) :: rest)
      else (replaceOwn rest key v).map fun r => (k, w) :: r

/-- The read `target.k1.k2...kn`. -/
def readPath : JSValue → List String → Except JSError JSValue
  | target, [] => Except.ok target
  | target, key :: rest => member target key >>= fun child => readPath child rest

/-- The assignment `target.k1.k2...kn = v` of a fresh value `v`, as the state
of the object graph after it: the objects `target.k1`, ..., `target.k1...k(n-1)`
are read in turn and `kn` is assigned on the last.  It is described when every
key on the way names an existing own property of a plain object; otherwise the
answer is `none`. -/
def assignPath : JSValue → List String → JSValue → Option JSValue
  | _, [], _ => none
  | JSValue.obj props, key :: rest, v =>
      match rest with
      | [] => (replaceOwn props key v).map JSValue.obj
      | _ :: _ =>
        match List.lookup key props with
        | some child =>
            (assignPath child rest v).bind fun written =>
              (replaceOwn props key written).map JSValue.obj
        | none => none
  | _, _ :: _, _ => none

/-- The operations of the language on an object one holds a reference to that
matter here: reading along a property path and assigning along one. -/
inductive Op where
  | get (path : List String) : Op
  | set (path : List String) (v : JSValue) : Op

/-- Whether the operation is a read. -/
def Op.isRead : Op → Bool
  | Op.get _ => true
  | Op.set _ _ => false

/-- The state of the exported object after one operation on it.  A read
leaves the object as it is, whatever it returns or throws. -/
def step (state : JSValue) : Op → Option JSValue
  | Op.get _ => some state
  | Op.set path v => assignPath state path v

/-- The state of the exported object after a sequence of operations. -/
def run : JSValue → List Op → Option JSValue
  | state, [] => some state
  | state, op :: rest => (step state op).bind fun next => run next rest

/-- The string stored at `config.env.NEXT_PUBLIC_MAPBOX_TOKEN`, when a string
is stored there. -/
def mapboxTokenOf (r : Except JSError JSValue) : Option String :=
  match r >>= fun c => readPath c ["env", "NEXT_PUBLIC_MAPBOX_TOKEN"] with
  | Except.ok (JSValue.str s) => some s
  | _ => none

/-- The exported object after the holder has run the given operations on
it. -/
def exportsAfter (E : ProcessEnv) (ops : List Op) : Except JSError (Option JSValue) :=
  moduleExports E >>= fun c => pure (run c ops)

/-- The string stored at `env.NEXT_PUBLIC_MAPBOX_TOKEN` of a state reached by
the holder, when the state is described and a string is stored there. -/
def mapboxTokenAfter (r : Except JSError (Option JSValue)) : Option String :=
  match r with
  | Except.ok (some c) => mapboxTokenOf (Except.ok c)
  | _ => none

/-! ## Evaluating the module body -/

theorem lookup_processEnv (E : ProcessEnv) (name : String) :
    List.lookup name (E.map fun p => (p.1, JSValue.str p.2))
      = (E.getenv name).map JSValue.str := by
  induction E with
  | nil => rfl
  | cons p rest ih =>
    obtain ⟨k, v⟩ := p
    simp only [List.map_cons, ProcessEnv.getenv, List.lookup_cons]
    cases h : name == k
    · simpa [ProcessEnv.getenv] using ih
    · rfl

theorem member_obj (props : List (String × JSValue)) (key : String) :
    member (JSValue.obj props) key = Except.ok (ownProperty props key) := rfl

theorem member_processGlobal_env (E : ProcessEnv) :
    member (processGlobal E) "env" = Except.ok (processEnvObject E) := rfl

/-- The read `process.env.NAME` never throws: it gives the string the name is
set to, or `undefined`. -/
theorem processEnvRead_eq (E : ProcessEnv) (name : String) :
    processEnvRead E name = Except.ok (envValue (E.getenv name)) := by
  unfold processEnvRead
  rw [member_processGlobal_env]
  show member (processEnvObject E) name = _
  rw [processEnvObject, member_obj, ownProperty, lookup_processEnv]
  cases E.getenv name <;> rfl

/-- The value the module body evaluates to, in closed form. -/
theorem nextConfig_eq (E : ProcessEnv) :
    nextConfig E = Except.ok (JSValue.obj
      [("experimental", JSValue.obj [("appDir", JSValue.bool true)]),
       ("images", JSValue.obj
          [("domains", JSValue.arr [JSValue.str "localhost"]),
           ("unoptimized", JSValue.bool true)]),
       ("env", JSValue.obj (publicNames.map fun n => (n, envValue (E.getenv n))))]) := by
  simp only [nextConfig, processEnvRead_eq]
  rfl

theorem configField_env (E : ProcessEnv) :
    configField E "env"
      = Except.ok (JSValue.obj (publicNames.map fun n => (n, envValue (E.getenv n)))) := by
  unfold configField
  rw [nextConfig_eq]
  rfl

theorem configEnv_eq (E : ProcessEnv) (name : String) (h : name ∈ publicNames) :
    configEnv E name = Except.ok (envValue (E.getenv name)) := by
  unfold configEnv
  rw [configField_env]
  show member (JSValue.obj _) name = _
  rw [member_obj]
  simp only [publicNames, List.mem_cons, List.mem_singleton, List.not_mem_nil, or_false] at h
  rcases h with h | h | h | h <;> subst h <;> rfl

theorem run_reads (state : JSValue) (ops : List Op)
    (h : ∀ op ∈ ops, op.isRead = true) : run state ops = some state := by
  induction ops with
  | nil => rfl
  | cons op rest ih =>
    have hop : op.isRead = true := h op (List.mem_cons_self op rest)
    have hrest : ∀ o ∈ rest, o.isRead = true := fun o ho => h o (List.mem_cons_of_mem op ho)
    cases op with
    | get path => simpa [run, step] using ih hrest
    | set path v => simp [Op.isRead] at hop

/-! ## The environment passthrough -/

/-- C1: for each of the four named variables, if the environment sets it to a
string `s` (the empty string included), reading the config's `env` field under
that same name gives exactly `s`, whatever the rest of the environment, the
other three variables included, holds. -/
theorem env_carries_set_value (E : ProcessEnv) (name s : String)
    (hname : name ∈ publicNames) (hset : E.getenv name = some s) :
    configEnv E name = Except.ok (JSValue.str s) := by
  rw [configEnv_eq E name hname, hset]
  rfl

theorem env_carries_set_value_witness :
    "NEXT_PUBLIC_MAPBOX_TOKEN" ∈ publicNames
      ∧ ProcessEnv.getenv
          [("NEXT_PUBLIC_SUPABASE_URL", "https://db.example"),
           ("NEXT_PUBLIC_SUPABASE_ANON_KEY", "anon"),
           ("NEXT_PUBLIC_MAPBOX_TOKEN", "abc123"),
           ("NEXT_PUBLIC_CLOUDFLARE_R2_PUBLIC_URL", "")]
          "NEXT_PUBLIC_MAPBOX_TOKEN" = some "abc123"
      ∧ configEnv
          [("NEXT_PUBLIC_SUPABASE_URL", "https://db.example"),
           ("NEXT_PUBLIC_SUPABASE_ANON_KEY", "anon"),
           ("NEXT_PUBLIC_MAPBOX_TOKEN", "abc123"),
           ("NEXT_PUBLIC_CLOUDFLARE_R2_PUBLIC_URL", "")]
          "NEXT_PUBLIC_MAPBOX_TOKEN" = Except.ok (JSValue.str "abc123") :=
  ⟨by decide, by decide,
   env_carries_set_value
     [("NEXT_PUBLIC_SUPABASE_URL", "https://db.example"),
      ("NEXT_PUBLIC_SUPABASE_ANON_KEY", "anon"),
      ("NEXT_PUBLIC_MAPBOX_TOKEN", "abc123"),
      ("NEXT_PUBLIC_CLOUDFLARE_R2_PUBLIC_URL", "")]
     "NEXT_PUBLIC_MAPBOX_TOKEN" "abc123" (by decide) (by decide)⟩

/-- The empty string is carried like any other: a variable set to the empty
string reads back as the empty string, not as `undefined`. -/
theorem env_carries_empty_string :
    configEnv [("NEXT_PUBLIC_CLOUDFLARE_R2_PUBLIC_URL", "")] "NEXT_PUBLIC_CLOUDFLARE_R2_PUBLIC_URL"
      = Except.ok (JSValue.str "") := rfl

/-- C2: for each of the four named variables, if the environment does not set
it, reading the config's `env` field under that name gives `undefined`, no
string, whether or not the other three variables are set. -/
theorem env_unset_is_undefined (E : ProcessEnv) (name : String)
    (hname : name ∈ publicNames) (hunset : E.getenv name = none) :
    configEnv E name = Except.ok JSValue.undefined := by
  rw [configEnv_eq E name hname, hunset]
  rfl

theorem env_unset_is_undefined_witness :
    "NEXT_PUBLIC_SUPABASE_ANON_KEY" ∈ publicNames
      ∧ ProcessEnv.getenv
          [("NEXT_PUBLIC_SUPABASE_URL", "https://db.example"), ("PATH", "/usr/bin"),
           ("NEXT_PUBLIC_MAPBOX_TOKEN", "abc123"),
           ("NEXT_PUBLIC_CLOUDFLARE_R2_PUBLIC_URL", "")]
          "NEXT_PUBLIC_SUPABASE_ANON_KEY" = none
      ∧ configEnv
          [("NEXT_PUBLIC_SUPABASE_URL", "https://db.example"), ("PATH", "/usr/bin"),
           ("NEXT_PUBLIC_MAPBOX_TOKEN", "abc123"),
           ("NEXT_PUBLIC_CLOUDFLARE_R2_PUBLIC_URL", "")]
          "NEXT_PUBLIC_SUPABASE_ANON_KEY" = Except.ok JSValue.undefined :=
  ⟨by decide, by decide,
   env_unset_is_undefined
     [("NEXT_PUBLIC_SUPABASE_URL", "https://db.example"), ("PATH", "/usr/bin"),
      ("NEXT_PUBLIC_MAPBOX_TOKEN", "abc123"),
      ("NEXT_PUBLIC_CLOUDFLARE_R2_PUBLIC_URL", "")]
     "NEXT_PUBLIC_SUPABASE_ANON_KEY" (by decide) (by decide)⟩

/-- C3: building the config cannot fail.  For every environment the module
body evaluates without throwing, to an object; this holds in particular for
the empty environment, where none of the four variables is set. -/
theorem nextConfig_total (E : ProcessEnv) :
    (∃ props, nextConfig E = Except.ok (JSValue.obj props))
      ∧ nextConfig [] = Except.ok (JSValue.obj
          [("experimental", JSValue.obj [("appDir", JSValue.bool true)]),
           ("images", JSValue.obj
              [("domains", JSValue.arr [JSValue.str "localhost"]),
               ("unoptimized", JSValue.bool true)]),
           ("env", JSValue.obj
              [("NEXT_PUBLIC_SUPABASE_URL", JSValue.undefined),
               ("NEXT_PUBLIC_SUPABASE_ANON_KEY", JSValue.undefined),
               ("NEXT_PUBLIC_MAPBOX_TOKEN", JSValue.undefined),
               ("NEXT_PUBLIC_CLOUDFLARE_R2_PUBLIC_URL", JSValue.undefined)])]) :=
  ⟨⟨_, nextConfig_eq E⟩, rfl⟩

/-- C4: the config's `env` object is populated from exactly the four named
variables.  Its keys are the four names (so a subset of them), and the value
under each key is what the environment holds under that same name, so no other
variable of the environment enters the `env` field. -/
theorem env_keys_are_public_names (E : ProcessEnv) :
    ∃ props, configField E "env" = Except.ok (JSValue.obj props)
      ∧ ownKeys (JSValue.obj props) ⊆ publicNames
      ∧ ownKeys (JSValue.obj props) = publicNames
      ∧ props = publicNames.map fun n => (n, envValue (E.getenv n)) := by
  refine ⟨_, configField_env E, ?_, ?_, rfl⟩
  · intro k hk
    simpa [ownKeys, publicNames] using hk
  · rfl

/-! ## The constant fields -/

/-- C5: for every environment the config's `images` field is the same record:
`domains` is the one-element sequence holding "localhost" and `unoptimized` is
true. -/
theorem images_constant (E : ProcessEnv) :
    configField E "images" = Except.ok (JSValue.obj
        [("domains", JSValue.arr [JSValue.str "localhost"]),
         ("unoptimized", JSValue.bool true)])
      ∧ (configField E "images" >>= fun i => member i "domains")
          = Except.ok (JSValue.arr [JSValue.str "localhost"])
      ∧ (configField E "images" >>= fun i => member i "unoptimized")
          = Except.ok (JSValue.bool true) := by
  have h : configField E "images" = Except.ok (JSValue.obj
      [("domains", JSValue.arr [JSValue.str "localhost"]),
       ("unoptimized", JSValue.bool true)]) := by
    unfold configField
    rw [nextConfig_eq]
    rfl
  rw [h]
  exact ⟨rfl, rfl, rfl⟩

/-- C6: for every environment the config's `experimental` field is an object
whose only option is `appDir`, and `experimental.appDir` is true. -/
theorem experimental_constant (E : ProcessEnv) :
    configField E "experimental" = Except.ok (JSValue.obj [("appDir", JSValue.bool true)])
      ∧ (configField E "experimental" >>= fun x => pure (ownKeys x)) = Except.ok ["appDir"]
      ∧ (configField E "experimental" >>= fun x => member x "appDir")
          = Except.ok (JSValue.bool true) := by
  have h : configField E "experimental"
      = Except.ok (JSValue.obj [("appDir", JSValue.bool true)]) := by
    unfold configField
    rw [nextConfig_eq]
    rfl
  rw [h]
  exact ⟨rfl, rfl, rfl⟩

/-! ## Dependence on the environment -/

/-- C8: the config depends on the environment only through the four named
variables.  Two environments that agree on each of the four names (set to the
same string in both, or unset in both) give equal configs, however they differ
elsewhere. -/
theorem nextConfig_depends_on_public_names (E1 E2 : ProcessEnv)
    (hagree : ∀ n ∈ publicNames, E1.getenv n = E2.getenv n) :
    nextConfig E1 = nextConfig E2 := by
  rw [nextConfig_eq E1, nextConfig_eq E2]
  have hmap : (publicNames.map fun n => (n, envValue (E1.getenv n)))
      = (publicNames.map fun n => (n, envValue (E2.getenv n))) := by
    apply List.map_congr_left
    intro n hn
    rw [hagree n hn]
  rw [hmap]

theorem nextConfig_depends_on_public_names_witness :
    (∀ n ∈ publicNames,
        ProcessEnv.getenv
            [("NEXT_PUBLIC_MAPBOX_TOKEN", "abc123"), ("PATH", "/usr/bin"), ("SECRET", "s3")] n
          = ProcessEnv.getenv [("HOME", "/root"), ("NEXT_PUBLIC_MAPBOX_TOKEN", "abc123")] n)
      ∧ nextConfig [("NEXT_PUBLIC_MAPBOX_TOKEN", "abc123"), ("PATH", "/usr/bin"), ("SECRET", "s3")]
          = nextConfig [("HOME", "/root"), ("NEXT_PUBLIC_MAPBOX_TOKEN", "abc123")] :=
  ⟨by decide,
   nextConfig_depends_on_public_names
     [("NEXT_PUBLIC_MAPBOX_TOKEN", "abc123"), ("PATH", "/usr/bin"), ("SECRET", "s3")]
     [("HOME", "/root"), ("NEXT_PUBLIC_MAPBOX_TOKEN", "abc123")] (by decide)⟩

/-- C9: the `experimental` and `images` fields do not depend on the
environment.  For any two environments the two configs have equal
`experimental` fields and equal `images` fields, and each config is made of
these two fields and `env` only, so `env` is the one field that can differ. -/
theorem experimental_images_independent (E1 E2 : ProcessEnv) :
    configField E1 "experimental" = configField E2 "experimental"
      ∧ configField E1 "images" = configField E2 "images"
      ∧ ∃ x i e1 e2,
          nextConfig E1 = Except.ok (JSValue.obj [("experimental", x), ("images", i), ("env", e1)])
          ∧ nextConfig E2
              = Except.ok (JSValue.obj [("experimental", x), ("images", i), ("env", e2)]) := by
  refine ⟨?_, ?_, _, _, _, _, nextConfig_eq E1, nextConfig_eq E2⟩
  · unfold configField
    rw [nextConfig_eq E1, nextConfig_eq E2]
    rfl
  · unfold configField
    rw [nextConfig_eq E1, nextConfig_eq E2]
    rfl

/-- The `env` field does differ between environments that differ on one of the
four names. -/
theorem env_field_can_differ :
    mapboxTokenOf (nextConfig [("NEXT_PUBLIC_MAPBOX_TOKEN", "abc123")]) = some "abc123"
      ∧ mapboxTokenOf (nextConfig [("NEXT_PUBLIC_MAPBOX_TOKEN", "xyz789")]) = some "xyz789" :=
  ⟨rfl, rfl⟩

/-! ## Mutability of the exported object -/

/-- C7, as stated, fails.  Build the config with NEXT_PUBLIC_MAPBOX_TOKEN set
to "abc123"; a holder of the exported object that assigns
`config.env.NEXT_PUBLIC_MAPBOX_TOKEN = "tampered"` reads "tampered" there
afterwards, not the value the field had at construction.  So it is not the case
that every sequence of operations leaves the three fields as they were. -/
theorem exported_config_is_mutable :
    mapboxTokenOf (moduleExports [("NEXT_PUBLIC_MAPBOX_TOKEN", "abc123")]) = some "abc123"
      ∧ mapboxTokenAfter
          (exportsAfter [("NEXT_PUBLIC_MAPBOX_TOKEN", "abc123")]
            [Op.set ["env", "NEXT_PUBLIC_MAPBOX_TOKEN"] (JSValue.str "tampered")])
          = some "tampered"
      ∧ ¬ (∀ (E : ProcessEnv) (c c2 : JSValue) (ops : List Op) (key : String),
            moduleExports E = Except.ok c →
            run c ops = some c2 →
            key ∈ recordFields →
            member c2 key = member c key) := by
  refine ⟨rfl, rfl, ?_⟩
  intro h
  have hc := nextConfig_eq [("NEXT_PUBLIC_MAPBOX_TOKEN", "abc123")]
  have h1 := h [("NEXT_PUBLIC_MAPBOX_TOKEN", "abc123")] _ _
    [Op.set ["env", "NEXT_PUBLIC_MAPBOX_TOKEN"] (JSValue.str "tampered")] "env" hc rfl
    (by decide)
  have h2 := congrArg
    (fun r => mapboxTokenOf (r >>= fun e => pure (JSValue.obj [("env", e)]))) h1
  exact absurd h2 (by decide)

/-- C7, amended: the record is not immutable.  The module exports the record
as constructed, and the record stays as constructed under any sequence of
reads; but an assignment by a holder to an existing property takes effect.
After `config.K = v`, for `K` one of experimental, images and env, a read of
`K` gives `v` and the other two fields are as before.  After
`config.env.N = v`, for `N` one of the four names, a read of `config.env.N`
gives `v`, and experimental, images and the other three env entries are as
before. -/
theorem exported_config_unfrozen (E : ProcessEnv) (v : JSValue) :
    ∃ c, moduleExports E = Except.ok c
      ∧ c = JSValue.obj
          [("experimental", JSValue.obj [("appDir", JSValue.bool true)]),
           ("images", JSValue.obj
              [("domains", JSValue.arr [JSValue.str "localhost"]),
               ("unoptimized", JSValue.bool true)]),
           ("env", JSValue.obj (publicNames.map fun n => (n, envValue (E.getenv n))))]
      ∧ (∀ ops, (∀ op ∈ ops, op.isRead = true) → run c ops = some c)
      ∧ (∀ key ∈ recordFields, ∃ c2, run c [Op.set [key] v] = some c2
            ∧ member c2 key = Except.ok v
            ∧ ∀ other ∈ recordFields, other ≠ key → member c2 other = member c other)
      ∧ (∀ name ∈ publicNames, ∃ c2, run c [Op.set ["env", name] v] = some c2
            ∧ readPath c2 ["env", name] = Except.ok v
            ∧ member c2 "experimental" = member c "experimental"
            ∧ member c2 "images" = member c "images"
            ∧ ∀ other ∈ publicNames, other ≠ name →
                readPath c2 ["env", other] = readPath c ["env", other]) := by
  refine ⟨_, nextConfig_eq E, rfl, fun ops h => run_reads _ ops h, ?_, ?_⟩
  · intro key hk
    simp only [recordFields, List.mem_cons, List.mem_singleton, List.not_mem_nil, or_false] at hk
    rcases hk with rfl | rfl | rfl
    all_goals
      refine ⟨_, rfl, rfl, ?_⟩
      intro other ho hne
      simp only [recordFields, List.mem_cons, List.mem_singleton, List.not_mem_nil, or_false] at ho
      rcases ho with rfl | rfl | rfl
      all_goals first | exact absurd rfl hne | rfl
  · intro name hn
    simp only [publicNames, List.mem_cons, List.mem_singleton, List.not_mem_nil, or_false] at hn
    rcases hn with rfl | rfl | rfl | rfl
    all_goals
      refine ⟨_, rfl, rfl, rfl, rfl, ?_⟩
      intro other ho hne
      simp only [publicNames, List.mem_cons, List.mem_singleton, List.not_mem_nil, or_false] at ho
      rcases ho with rfl | rfl | rfl | rfl
      all_goals first | exact absurd rfl hne | rfl

theorem exported_config_unfrozen_witness :
    ∃ c c2, moduleExports [("NEXT_PUBLIC_MAPBOX_TOKEN", "abc123")] = Except.ok c
      ∧ run c [Op.get ["env", "NEXT_PUBLIC_MAPBOX_TOKEN"], Op.get ["images"]] = some c
      ∧ run c [Op.set ["env", "NEXT_PUBLIC_MAPBOX_TOKEN"] (JSValue.str "tampered")] = some c2
      ∧ readPath c2 ["env", "NEXT_PUBLIC_MAPBOX_TOKEN"] = Except.ok (JSValue.str "tampered")
      ∧ readPath c2 ["env", "NEXT_PUBLIC_SUPABASE_URL"]
          = readPath c ["env", "NEXT_PUBLIC_SUPABASE_URL"] := by
  obtain ⟨c, hc, _, hreads, _, henv⟩ :=
    exported_config_unfrozen [("NEXT_PUBLIC_MAPBOX_TOKEN", "abc123")] (JSValue.str "tampered")
  obtain ⟨c2, hrun, hread, _, _, hothers⟩ := henv "NEXT_PUBLIC_MAPBOX_TOKEN" (by decide)
  exact ⟨c, c2, hc, hreads _ (by simp [Op.isRead]), hrun, hread,
    hothers "NEXT_PUBLIC_SUPABASE_URL" (by decide) (by decide)⟩

end PrimarySource
